import Mathlib

/-!
Verification of the frame-compositing and capture pipeline of the Watermark
repository, shallowly embedded from src/services/videoProcessor.ts.

Numeric quantities computed by the pipeline (scales, offsets, font metrics,
progress percentages) are modelled as rationals; the arithmetic performed by
the pipeline on them is exact at every input considered here.  Event-handler
code (cleanup, the video error handler) is modelled as functions from an
explicit pipeline state to a successor state plus the ordered list of
externally visible actions the handler performs.
-/

namespace Watermark

/-- Fixed output width of the render target (constant TARGET_WIDTH). -/
def TARGET_WIDTH : ℚ := 1080

/-- Fixed output height of the render target (constant TARGET_HEIGHT). -/
def TARGET_HEIGHT : ℚ := 1920

/-- Watermark settings snapshot, as consumed by videoProcessor.ts
(size 5 to 80 percent, opacity, right margin 0 to 200 px, bottom margin
0 to 400 px; the ranges are those of the sliders in App.tsx). -/
structure WatermarkSettings where
  size : ℚ
  opacity : ℚ
  marginRight : ℚ
  marginBottom : ℚ

/-- Text overlay settings snapshot, as consumed by videoProcessor.ts.
The content string is modelled as its list of characters. -/
structure TextOverlaySettings where
  enabled : Bool
  content : List Char
  fontSize : ℚ
  color : String
  yPosition : ℚ
  opacity : ℚ

/-! Frame geometry, from drawFrame: contain scale and centred draw rect. -/

/-- Uniform contain scale from drawFrame:
scale = Math.min(TARGET_WIDTH / vW, TARGET_HEIGHT / vH). -/
def containScale (vW vH : ℚ) : ℚ := min (TARGET_WIDTH / vW) (TARGET_HEIGHT / vH)

/-- Scaled draw width dW = vW * scale. -/
def drawW (vW vH : ℚ) : ℚ := vW * containScale vW vH

/-- Scaled draw height dH = vH * scale. -/
def drawH (vW vH : ℚ) : ℚ := vH * containScale vW vH

/-- Horizontal draw offset dX = (TARGET_WIDTH - dW) / 2. -/
def drawX (vW vH : ℚ) : ℚ := (TARGET_WIDTH - drawW vW vH) / 2

/-- Vertical draw offset dY = (TARGET_HEIGHT - dH) / 2. -/
def drawY (vW vH : ℚ) : ℚ := (TARGET_HEIGHT - drawH vW vH) / 2

/-! Logo overlay geometry, from renderLogo. -/

/-- Logo aspect = logoImage.width / logoImage.height. -/
def logoAspect (w h : ℚ) : ℚ := w / h

/-- Logo target width = TARGET_WIDTH * (settings.size / 100). -/
def logoTargetWidth (s : WatermarkSettings) : ℚ := TARGET_WIDTH * (s.size / 100)

/-- Logo target height = targetWidth / logoAspect. -/
def logoTargetHeight (w h : ℚ) (s : WatermarkSettings) : ℚ :=
  logoTargetWidth s / logoAspect w h

/-- Logo x = TARGET_WIDTH - targetWidth - settings.marginRight. -/
def logoX (s : WatermarkSettings) : ℚ :=
  TARGET_WIDTH - logoTargetWidth s - s.marginRight

/-- Logo y = TARGET_HEIGHT - targetHeight - settings.marginBottom. -/
def logoY (w h : ℚ) (s : WatermarkSettings) : ℚ :=
  TARGET_HEIGHT - logoTargetHeight w h s - s.marginBottom

/-! Text overlay geometry, from renderText. -/

/-- The line separator character used by renderText
(settings.content.split with the newline character). -/
def newlineChar : Char := Char.ofNat 10

/-- JavaScript-style split of a character list on the newline character:
splitting on N separators yields N+1 pieces, empty pieces included, and
splitting the empty string yields one empty piece. -/
def splitLines : List Char → List (List Char)
  | [] => [[]]
  | c :: cs =>
    if c = newlineChar then [] :: splitLines cs
    else
      match splitLines cs with
      | [] => [[c]]
      | l :: ls => (c :: l) :: ls

/-- Font pixel size = (TARGET_HEIGHT * settings.fontSize) / 100. -/
def fontSizePx (ts : TextOverlaySettings) : ℚ := TARGET_HEIGHT * ts.fontSize / 100

/-- Horizontal anchor of every text line: x = TARGET_WIDTH / 2. -/
def textX : ℚ := TARGET_WIDTH / 2

/-- Vertical centre of the text block: y = (TARGET_HEIGHT * settings.yPosition) / 100. -/
def textCenterY (ts : TextOverlaySettings) : ℚ := TARGET_HEIGHT * ts.yPosition / 100

/-- Line height = fontSizePx * 1.2. -/
def lineHeight (ts : TextOverlaySettings) : ℚ := fontSizePx ts * 1.2

/-- Vertical position of the first line:
startY = y - ((lines.length - 1) * lineHeight) / 2. -/
def textStartY (ts : TextOverlaySettings) : ℚ :=
  textCenterY ts - ((((splitLines ts.content).length : ℚ) - 1) * lineHeight ts) / 2

/-- Vertical position of line index k: startY + k * lineHeight. -/
def lineY (ts : TextOverlaySettings) (k : ℕ) : ℚ :=
  textStartY ts + (k : ℚ) * lineHeight ts

/-- Sample text settings of the specified scenario: content LINE1 then a
line break then LINE2, fontSize 3, yPosition 80. -/
def sampleTextSettings : TextOverlaySettings :=
  { enabled := true
    content := "LINE1\nLINE2".toList
    fontSize := 3
    color := "#FFFFFF"
    yPosition := 80
    opacity := 1 }

/-! Progress computation, from renderLoop.  The source duration is an
Option: none models an unavailable (NaN) duration, some d a numeric one;
both none and some 0 are falsy in the guard duration-or-1. -/

/-- Divisor used by the progress computation: the expression
videoElement.duration-or-else-1, substituting 1 when the duration is
falsy (NaN, modelled as none, or 0). -/
def durationDivisor : Option ℚ → ℚ
  | none => 1
  | some d => if d = 0 then 1 else d

/-- Value passed to onProgress for playback position t:
Math.min((currentTime / duration) * 100, 99.9). -/
def progressValue (dur : Option ℚ) (t : ℚ) : ℚ :=
  min (t / durationDivisor dur * 100) 99.9

/-! Finalisation, from the onstop handler of processVideo. -/

/-- Failure taxonomy relevant to the modelled handlers. -/
inductive ProcError where
  | emptyOutput
  | playbackError
deriving DecidableEq

/-- Assembled output buffer: the concatenation of all accumulated chunks
(new Blob(this.chunks)). -/
def assembleOutput (chunks : List (List ℕ)) : List ℕ := chunks.flatten

/-- Mime type attached to the result: mediaRecorder.mimeType when truthy
(nonempty), otherwise the negotiated fallback. -/
def finalMimeType (actual negotiated : String) : String :=
  if actual = "" then negotiated else actual

/-- The onstop handler: assemble the chunks; reject with the empty-output
error when the blob has size zero, otherwise resolve with the blob and the
final mime type. -/
def finalizeRecording (chunks : List (List ℕ)) (actual negotiated : String) :
    Except ProcError (List ℕ × String) :=
  let blob := assembleOutput chunks
  if blob.length = 0 then Except.error ProcError.emptyOutput
  else Except.ok (blob, finalMimeType actual negotiated)

/-! Lifecycle state machine: cleanup and the video error handler. -/

/-- MediaRecorder lifecycle states. -/
inductive RecorderState where
  | recording
  | paused
  | inactive
deriving DecidableEq

/-- Mutable pipeline fields relevant to teardown: the pending animation
frame id (none models null) and the recorder handle with its state
(none models a null mediaRecorder). -/
structure PipelineState where
  animationFrameId : Option ℕ
  recorder : Option RecorderState
deriving DecidableEq

/-- Externally visible actions a handler can perform, in program order. -/
inductive RunEvent where
  | cancelFrame (id : ℕ)
  | stopRecorder
  | rejectPlayback
deriving DecidableEq

/-- Truthiness of the animationFrameId field as tested by cleanup:
null is falsy and so is the number 0. -/
def truthyFrameId : Option ℕ → Bool
  | none => false
  | some id => id ≠ 0

/-- Whether the recorder exists and its state differs from inactive
(the guard of the stop call in cleanup). -/
def recorderActive : Option RecorderState → Bool
  | some RecorderState.recording => true
  | some RecorderState.paused => true
  | _ => false

/-- First half of cleanup: when the frame id is truthy, cancel it and
null the field. -/
def cleanupFrameStep (s : PipelineState) : PipelineState × List RunEvent :=
  match s.animationFrameId with
  | some id =>
    if id = 0 then (s, [])
    else ({ s with animationFrameId := none }, [RunEvent.cancelFrame id])
  | none => (s, [])

/-- Second half of cleanup: when the recorder exists in a state other than
inactive, stop it (stopping moves the recorder to the inactive state). -/
def cleanupRecorderStep (s : PipelineState) : PipelineState × List RunEvent :=
  if recorderActive s.recorder then
    ({ s with recorder := some RecorderState.inactive }, [RunEvent.stopRecorder])
  else (s, [])

/-- The cleanup method, run first by every processVideo call: cancel a
pending frame callback, then stop a non-inactive recorder. -/
def cleanup (s : PipelineState) : PipelineState × List RunEvent :=
  let r1 := cleanupFrameStep s
  let r2 := cleanupRecorderStep r1.1
  (r2.1, r1.2 ++ r2.2)

/-- The videoElement error handler of processVideo: reject the run promise
with the playback error, then stop the recorder only when its state is
exactly recording. -/
def onVideoError (s : PipelineState) : PipelineState × List RunEvent :=
  if s.recorder = some RecorderState.recording then
    ({ s with recorder := some RecorderState.inactive },
      [RunEvent.rejectPlayback, RunEvent.stopRecorder])
  else (s, [RunEvent.rejectPlayback])

/-- Number of stop actions in an event list. -/
def countStops (l : List RunEvent) : ℕ :=
  (l.filter (fun e => e = RunEvent.stopRecorder)).length

/-! Codec negotiation, from getSupportedMimeType and its call site. -/

/-- Candidate mime types, in descending priority, exactly as listed in
getSupportedMimeType. -/
def mimeCandidates : List String :=
  [ "video/mp4;codecs=avc1.42E01E,mp4a.40.2"
  , "video/mp4;codecs=avc1.4D401E,mp4a.40.2"
  , "video/mp4;codecs=avc1.64001E,mp4a.40.2"
  , "video/mp4"
  , "video/webm;codecs=h264"
  , "video/webm;codecs=vp9,opus"
  , "video/webm" ]

/-- getSupportedMimeType over an abstract host capability predicate:
the first candidate the host supports, or the empty string. -/
def getSupportedMimeType (sup : String → Bool) : String :=
  (mimeCandidates.find? sup).getD ""

/-- Mime type actually used by processVideo: the negotiated one, replaced
by the generic default container identifier when it is falsy (empty). -/
def negotiateMimeType (sup : String → Bool) : String :=
  let m := getSupportedMimeType sup
  if m = "" then "video/webm" else m

/-! Theorems. -/

/-- C1: for every source video with positive natural width and height, each
composited frame uses the uniform contain scale min(1080/vW, 1920/vH),
draws the source at size (vW * scale, vH * scale) at offsets
((1080 - scaledWidth)/2, (1920 - scaledHeight)/2), both offsets are
nonnegative, and the scaled draw rectangle lies inside the 1080 by 1920
target surface. -/
theorem drawFrame_contain_spec (vW vH : ℕ) (hW : 0 < vW) (hH : 0 < vH) :
    containScale vW vH = min (1080 / (vW : ℚ)) (1920 / (vH : ℚ))
    ∧ drawW vW vH = (vW : ℚ) * containScale vW vH
    ∧ drawH vW vH = (vH : ℚ) * containScale vW vH
    ∧ drawX vW vH = (1080 - drawW vW vH) / 2
    ∧ drawY vW vH = (1920 - drawH vW vH) / 2
    ∧ 0 ≤ drawX vW vH
    ∧ 0 ≤ drawY vW vH
    ∧ drawX vW vH + drawW vW vH ≤ 1080
    ∧ drawY vW vH + drawH vW vH ≤ 1920 := by
  have hWQ : (0 : ℚ) < vW := by exact_mod_cast hW
  have hHQ : (0 : ℚ) < vH := by exact_mod_cast hH
  have hdW : drawW vW vH ≤ 1080 := by
    simp only [drawW, containScale, TARGET_WIDTH, TARGET_HEIGHT]
    calc (vW : ℚ) * min (1080 / (vW : ℚ)) (1920 / (vH : ℚ))
        ≤ (vW : ℚ) * (1080 / (vW : ℚ)) :=
          mul_le_mul_of_nonneg_left (min_le_left _ _) hWQ.le
      _ = 1080 := by field_simp
  have hdH : drawH vW vH ≤ 1920 := by
    simp only [drawH, containScale, TARGET_WIDTH, TARGET_HEIGHT]
    calc (vH : ℚ) * min (1080 / (vW : ℚ)) (1920 / (vH : ℚ))
        ≤ (vH : ℚ) * (1920 / (vH : ℚ)) :=
          mul_le_mul_of_nonneg_left (min_le_right _ _) hHQ.le
      _ = 1920 := by field_simp
  refine ⟨rfl, rfl, rfl, rfl, rfl, ?_, ?_, ?_, ?_⟩
  · simp only [drawX, TARGET_WIDTH]; linarith
  · simp only [drawY, TARGET_HEIGHT]; linarith
  · simp only [drawX, TARGET_WIDTH]; linarith
  · simp only [drawY, TARGET_HEIGHT]; linarith

/-- Witness for C1 at a 1920 by 1080 landscape source. -/
theorem drawFrame_contain_witness :
    0 < (1920 : ℕ) ∧ 0 < (1080 : ℕ)
    ∧ 0 ≤ drawX ((1920 : ℕ) : ℚ) ((1080 : ℕ) : ℚ)
    ∧ drawX ((1920 : ℕ) : ℚ) ((1080 : ℕ) : ℚ)
        + drawW ((1920 : ℕ) : ℚ) ((1080 : ℕ) : ℚ) ≤ 1080 := by
  have h := drawFrame_contain_spec 1920 1080 (by norm_num) (by norm_num)
  exact ⟨by norm_num, by norm_num, h.2.2.2.2.2.1, h.2.2.2.2.2.2.2.1⟩

/-- C2: for every logo with positive natural dimensions and every settings
snapshot, the logo is drawn with width 1080 * (size/100), height
width / (logo aspect), at x = 1080 - width - marginRight and
y = 1920 - height - marginBottom; a 500 by 500 logo with size 20,
marginRight 40, marginBottom 100 is drawn 216 by 216 at (824, 1604). -/
theorem renderLogo_formula_spec (w h : ℕ) (s : WatermarkSettings)
    (hw : 0 < w) (hh : 0 < h) :
    (logoTargetWidth s = 1080 * (s.size / 100)
     ∧ logoTargetHeight w h s = logoTargetWidth s / ((w : ℚ) / (h : ℚ))
     ∧ logoX s = 1080 - logoTargetWidth s - s.marginRight
     ∧ logoY w h s = 1920 - logoTargetHeight w h s - s.marginBottom)
    ∧ (logoTargetWidth ⟨20, 9/10, 40, 100⟩ = 216
       ∧ logoTargetHeight 500 500 ⟨20, 9/10, 40, 100⟩ = 216
       ∧ logoX ⟨20, 9/10, 40, 100⟩ = 824
       ∧ logoY 500 500 ⟨20, 9/10, 40, 100⟩ = 1604) := by
  refine ⟨⟨rfl, rfl, rfl, rfl⟩, ?_, ?_, ?_, ?_⟩ <;>
    norm_num [logoTargetWidth, logoTargetHeight, logoX, logoY, logoAspect,
      TARGET_WIDTH, TARGET_HEIGHT]

/-- Witness for C2: the specified square-logo scenario. -/
theorem renderLogo_formula_witness :
    logoTargetWidth ⟨20, 9/10, 40, 100⟩ = 216
    ∧ logoTargetHeight 500 500 ⟨20, 9/10, 40, 100⟩ = 216
    ∧ logoX ⟨20, 9/10, 40, 100⟩ = 824
    ∧ logoY 500 500 ⟨20, 9/10, 40, 100⟩ = 1604 :=
  (renderLogo_formula_spec 500 500 ⟨20, 9/10, 40, 100⟩ (by norm_num) (by norm_num)).2

/-- C3 counterexample: a tall logo (500 wide, 1000 high, aspect 1/2) with
size 80, marginRight 0, marginBottom 400 — all inside the claimed setting
ranges — is drawn at a negative y, outside the target surface. -/
theorem renderLogo_bounds_cex :
    ((5 : ℚ) ≤ 80 ∧ (80 : ℚ) ≤ 80)
    ∧ ((0 : ℚ) ≤ 0 ∧ (0 : ℚ) ≤ 200)
    ∧ ((0 : ℚ) ≤ 400 ∧ (400 : ℚ) ≤ 400)
    ∧ logoY 500 1000 ⟨80, 1, 0, 400⟩ < 0 := by
  norm_num [logoY, logoTargetHeight, logoTargetWidth, logoAspect,
    TARGET_WIDTH, TARGET_HEIGHT]

/-- C3 amended: for every logo whose aspect ratio is at least 1 (width at
least height, height positive), every size in [5, 80], marginRight in
[0, 200] and marginBottom in [0, 400], the logo draw rectangle lies fully
within the 1080 by 1920 target surface. -/
theorem renderLogo_bounds_amended (w h : ℚ) (s : WatermarkSettings)
    (hh : 0 < h) (hwh : h ≤ w)
    (hs1 : 5 ≤ s.size) (hs2 : s.size ≤ 80)
    (hr1 : 0 ≤ s.marginRight) (hr2 : s.marginRight ≤ 200)
    (hb1 : 0 ≤ s.marginBottom) (hb2 : s.marginBottom ≤ 400) :
    0 ≤ logoX s ∧ 0 ≤ logoY w h s
    ∧ logoX s + logoTargetWidth s ≤ 1080
    ∧ logoY w h s + logoTargetHeight w h s ≤ 1920 := by
  have htW1 : logoTargetWidth s ≤ 864 := by
    simp only [logoTargetWidth, TARGET_WIDTH]; linarith
  have htW0 : 0 ≤ logoTargetWidth s := by
    simp only [logoTargetWidth, TARGET_WIDTH]; linarith
  have hasp : (1 : ℚ) ≤ logoAspect w h := by
    simp only [logoAspect]; exact (one_le_div hh).mpr hwh
  have htH1 : logoTargetHeight w h s ≤ logoTargetWidth s := by
    simp only [logoTargetHeight]; exact div_le_self htW0 hasp
  have htH0 : 0 ≤ logoTargetHeight w h s := by
    simp only [logoTargetHeight]
    exact div_nonneg htW0 (le_trans zero_le_one hasp)
  refine ⟨?_, ?_, ?_, ?_⟩ <;>
    simp only [logoX, logoY, TARGET_WIDTH, TARGET_HEIGHT] <;> linarith

/-- Witness for the amended C3 at a 600 by 500 logo with the default
settings snapshot. -/
theorem renderLogo_bounds_amended_witness :
    0 ≤ logoX ⟨20, 9/10, 40, 100⟩ ∧ 0 ≤ logoY 600 500 ⟨20, 9/10, 40, 100⟩ := by
  have h := renderLogo_bounds_amended 600 500 ⟨20, 9/10, 40, 100⟩
    (by norm_num) (by norm_num) (by norm_num) (by norm_num)
    (by norm_num) (by norm_num) (by norm_num) (by norm_num)
  exact ⟨h.1, h.2.1⟩

/-- Splitting on N separator occurrences yields N + 1 pieces. -/
theorem splitLines_length (cs : List Char) :
    (splitLines cs).length = cs.count newlineChar + 1 := by
  induction cs with
  | nil => rfl
  | cons c cs ih =>
    by_cases hc : c = newlineChar
    · simp only [splitLines, if_pos hc, List.length_cons, ih, List.count_cons]
      simp [hc]
    · cases hsp : splitLines cs with
      | nil => rw [hsp] at ih; simp at ih
      | cons l ls =>
        have hlen : ls.length + 1 = cs.count newlineChar + 1 := by
          rw [← ih, hsp, List.length_cons]
        simp only [splitLines, if_neg hc, hsp, List.length_cons, List.count_cons]
        simp [hc, ← hlen]

/-- C4: for every enabled text overlay with non-empty content containing N
line breaks, the compositor produces N + 1 lines, uses font pixel size
1920 * (fontSize/100), line spacing 1.2 times that, centres each line at
x = 540, places the first line at the block centre minus N * lineHeight / 2
and line k at first-line-y plus k * lineHeight; for content LINE1, line
break, LINE2 with fontSize 3 and yPosition 80 the two line positions are
1501.44 and 1570.56. -/
theorem renderText_spec (ts : TextOverlaySettings)
    (hEn : ts.enabled = true) (hNe : ts.content ≠ []) :
    (splitLines ts.content).length = ts.content.count newlineChar + 1
    ∧ fontSizePx ts = 1920 * (ts.fontSize / 100)
    ∧ lineHeight ts = 1.2 * fontSizePx ts
    ∧ textX = 540
    ∧ textCenterY ts = 1920 * (ts.yPosition / 100)
    ∧ textStartY ts
        = textCenterY ts - ((ts.content.count newlineChar : ℚ) * lineHeight ts) / 2
    ∧ (∀ k : ℕ, lineY ts k = textStartY ts + (k : ℚ) * lineHeight ts)
    ∧ lineY sampleTextSettings 0 = 1501.44
    ∧ lineY sampleTextSettings 1 = 1570.56 := by
  have hlen : (((splitLines sampleTextSettings.content).length : ℕ) : ℚ) = 2 := by
    have h2 : (splitLines sampleTextSettings.content).length = 2 := by decide
    rw [h2]; norm_num
  refine ⟨splitLines_length _, ?_, ?_, ?_, ?_, ?_, fun k => rfl, ?_, ?_⟩
  · simp only [fontSizePx, TARGET_HEIGHT]; ring
  · simp only [lineHeight]; ring
  · norm_num [textX, TARGET_WIDTH]
  · simp only [textCenterY, TARGET_HEIGHT]; ring
  · simp only [textStartY, splitLines_length]
    push_cast
    ring
  · simp only [lineY, textStartY, textCenterY, lineHeight, fontSizePx, hlen]
    norm_num [sampleTextSettings, TARGET_HEIGHT]
  · simp only [lineY, textStartY, textCenterY, lineHeight, fontSizePx, hlen]
    norm_num [sampleTextSettings, TARGET_HEIGHT]

/-- Witness for C4: the specified two-line scenario. -/
theorem renderText_witness :
    lineY sampleTextSettings 0 = 1501.44 ∧ lineY sampleTextSettings 1 = 1570.56 := by
  have h := renderText_spec sampleTextSettings rfl (by decide)
  exact ⟨h.2.2.2.2.2.2.2.1, h.2.2.2.2.2.2.2.2⟩

/-- C5: over any run with non-decreasing playback positions, the sequence
of values passed to onProgress is monotonically non-decreasing, every
reported value lies in [0, 99.9], and no reported value reaches 100. -/
theorem renderLoop_progress_spec (dur : Option ℚ) (ts : ℕ → ℚ)
    (hdur : ∀ d, dur = some d → 0 ≤ d)
    (hts : ∀ n, 0 ≤ ts n) (hmono : Monotone ts) :
    Monotone (fun n => progressValue dur (ts n))
    ∧ (∀ n, 0 ≤ progressValue dur (ts n))
    ∧ (∀ n, progressValue dur (ts n) ≤ 99.9)
    ∧ (∀ n, progressValue dur (ts n) < 100) := by
  have hD : 0 < durationDivisor dur := by
    cases dur with
    | none => norm_num [durationDivisor]
    | some d =>
      have hd := hdur d rfl
      by_cases h0 : d = 0
      · simp [durationDivisor, h0]
      · simp only [durationDivisor, if_neg h0]
        exact lt_of_le_of_ne hd (Ne.symm h0)
  refine ⟨?_, ?_, ?_, ?_⟩
  · intro a b hab
    show progressValue dur (ts a) ≤ progressValue dur (ts b)
    simp only [progressValue]
    refine min_le_min ?_ le_rfl
    exact mul_le_mul_of_nonneg_right
      ((div_le_div_iff_of_pos_right hD).mpr (hmono hab)) (by norm_num)
  · intro n
    apply le_min
    · exact mul_nonneg (div_nonneg (hts n) hD.le) (by norm_num)
    · norm_num
  · intro n; exact min_le_right _ _
  · intro n
    exact lt_of_le_of_lt (min_le_right _ _) (by norm_num)

/-- Witness for C5 at duration 10 and the constant position sequence 3. -/
theorem renderLoop_progress_witness :
    0 ≤ progressValue (some 10) 3 ∧ progressValue (some 10) 3 ≤ 99.9 := by
  have h := renderLoop_progress_spec (some 10) (fun _ => 3)
    (by intro d hd; injection hd with h10; rw [← h10]; norm_num)
    (fun _ => by norm_num) monotone_const
  exact ⟨h.2.1 0, h.2.2.1 0⟩

/-- C6: when the encoder finalises, an empty assembled buffer makes the run
reject with the empty-output error and never resolve as success, while a
non-empty buffer resolves with that buffer and the encoder's actual mime
type. -/
theorem finalize_empty_spec (chunks : List (List ℕ)) (actual negotiated : String) :
    (assembleOutput chunks = [] →
      finalizeRecording chunks actual negotiated = Except.error ProcError.emptyOutput)
    ∧ (assembleOutput chunks ≠ [] →
      finalizeRecording chunks actual negotiated
        = Except.ok (assembleOutput chunks, finalMimeType actual negotiated))
    ∧ (∀ out, finalizeRecording chunks actual negotiated = Except.ok out →
        assembleOutput chunks ≠ [])
    ∧ (actual ≠ "" → finalMimeType actual negotiated = actual) := by
  refine ⟨?_, ?_, ?_, ?_⟩
  · intro h; simp [finalizeRecording, h]
  · intro h; simp [finalizeRecording, List.length_eq_zero, h]
  · intro out hout h
    simp [finalizeRecording, h] at hout
  · intro h; simp [finalMimeType, h]

/-- Witness for C6: two non-empty chunks resolve as their concatenation
with the recorder's mime type. -/
theorem finalize_empty_witness :
    assembleOutput [[1], [2, 3]] ≠ []
    ∧ finalizeRecording [[1], [2, 3]] "video/mp4" "video/webm"
        = Except.ok ([1, 2, 3], "video/mp4") := by
  have h := (finalize_empty_spec [[1], [2, 3]] "video/mp4" "video/webm").2.1 (by decide)
  refine ⟨by decide, by rw [h]; simp [assembleOutput, finalMimeType]⟩

/-- C7: the teardown run first by every processVideo call cancels any
pending scheduled frame callback (host frame ids are nonzero), stops the
encoder exactly once and only when it is active and not already stopped,
is a no-op on a fresh pipeline with no prior session, and leaves a state
with no pending callback and no active recorder, so re-running it emits
nothing. -/
theorem cleanup_teardown_spec (s : PipelineState)
    (hid : s.animationFrameId ≠ some 0) :
    cleanup ⟨none, none⟩ = (⟨none, none⟩, [])
    ∧ (cleanup s).1.animationFrameId = none
    ∧ (∀ id, s.animationFrameId = some id → RunEvent.cancelFrame id ∈ (cleanup s).2)
    ∧ countStops (cleanup s).2 = (if recorderActive s.recorder then 1 else 0)
    ∧ recorderActive (cleanup s).1.recorder = false
    ∧ cleanup (cleanup s).1 = ((cleanup s).1, []) := by
  obtain ⟨fid, rec⟩ := s
  cases fid with
  | none =>
    refine ⟨rfl, ?_, ?_, ?_, ?_, ?_⟩ <;>
      first
        | (intro id h; exact Option.noConfusion h)
        | (cases rec with
            | none => rfl
            | some r => cases r <;> rfl)
  | some id =>
    have hid0 : ¬(id = 0) := fun h0 => hid (by rw [h0])
    have hstep : cleanupFrameStep ⟨some id, rec⟩
        = (⟨none, rec⟩, [RunEvent.cancelFrame id]) := by
      simp [cleanupFrameStep, hid0]
    have hcl : cleanup ⟨some id, rec⟩
        = ((cleanupRecorderStep ⟨none, rec⟩).1,
           RunEvent.cancelFrame id :: (cleanupRecorderStep ⟨none, rec⟩).2) := by
      simp [cleanup, hstep]
    refine ⟨rfl, ?_, ?_, ?_, ?_, ?_⟩
    · rw [hcl]
      cases rec with
      | none => rfl
      | some r => cases r <;> rfl
    · intro id2 h2
      injection h2 with h2
      subst h2
      rw [hcl]
      exact List.mem_cons_self _ _
    · rw [hcl]
      cases rec with
      | none => rfl
      | some r => cases r <;> rfl
    · rw [hcl]
      cases rec with
      | none => rfl
      | some r => cases r <;> rfl
    · rw [hcl]
      cases rec with
      | none => rfl
      | some r => cases r <;> rfl

/-- Witness for C7: a session with a pending frame callback and a
recording encoder is stopped exactly once and its callback cleared. -/
theorem cleanup_teardown_witness :
    countStops (cleanup ⟨some 5, some RecorderState.recording⟩).2 = 1
    ∧ (cleanup ⟨some 5, some RecorderState.recording⟩).1.animationFrameId = none := by
  have h := cleanup_teardown_spec ⟨some 5, some RecorderState.recording⟩ (by decide)
  exact ⟨by rw [h.2.2.2.1]; rfl, h.2.1⟩

/-- C8 counterexample: with a pending frame callback (id 7) and a
recording encoder, the playback error handler first rejects the run
promise, only then stops the encoder, and never cancels the pending frame
callback, which survives in the post-handler state. -/
theorem onVideoError_order_cex :
    (onVideoError ⟨some 7, some RecorderState.recording⟩).2
      = [RunEvent.rejectPlayback, RunEvent.stopRecorder]
    ∧ RunEvent.cancelFrame 7 ∉ (onVideoError ⟨some 7, some RecorderState.recording⟩).2
    ∧ (onVideoError ⟨some 7, some RecorderState.recording⟩).1.animationFrameId
        = some 7 := by
  refine ⟨rfl, ?_, rfl⟩
  intro hmem
  simp [onVideoError] at hmem

/-- C8 amended: the playback error handler surfaces the rejection as its
first action; it then stops the encoder exactly when the encoder state is
recording (moving it to inactive), performs nothing else otherwise, and
never cancels the scheduled frame callback, which it leaves untouched. -/
theorem onVideoError_spec (s : PipelineState) :
    (onVideoError s).2.head? = some RunEvent.rejectPlayback
    ∧ (s.recorder = some RecorderState.recording →
        (onVideoError s).2 = [RunEvent.rejectPlayback, RunEvent.stopRecorder]
        ∧ (onVideoError s).1.recorder = some RecorderState.inactive)
    ∧ (s.recorder ≠ some RecorderState.recording →
        (onVideoError s).2 = [RunEvent.rejectPlayback] ∧ (onVideoError s).1 = s)
    ∧ (onVideoError s).1.animationFrameId = s.animationFrameId
    ∧ (∀ id, RunEvent.cancelFrame id ∉ (onVideoError s).2) := by
  by_cases h : s.recorder = some RecorderState.recording
  · refine ⟨?_, ?_, ?_, ?_, ?_⟩ <;> simp [onVideoError, h]
  · refine ⟨?_, ?_, ?_, ?_, ?_⟩ <;> simp [onVideoError, h]

/-- Witness for the amended C8 in both the recording and non-recording
cases. -/
theorem onVideoError_spec_witness :
    (onVideoError ⟨some 3, some RecorderState.recording⟩).2
      = [RunEvent.rejectPlayback, RunEvent.stopRecorder]
    ∧ (onVideoError ⟨none, some RecorderState.paused⟩).2
      = [RunEvent.rejectPlayback] :=
  ⟨((onVideoError_spec ⟨some 3, some RecorderState.recording⟩).2.1 rfl).1,
   ((onVideoError_spec ⟨none, some RecorderState.paused⟩).2.2.1 (by decide)).1⟩

/-- C9: codec selection returns the first candidate of the fixed
descending-priority list the host supports, and falls back to the generic
default container identifier when no candidate is supported. -/
theorem mimeType_selection_spec (sup : String → Bool) :
    negotiateMimeType sup =
      (if sup "video/mp4;codecs=avc1.42E01E,mp4a.40.2"
         then "video/mp4;codecs=avc1.42E01E,mp4a.40.2"
       else if sup "video/mp4;codecs=avc1.4D401E,mp4a.40.2"
         then "video/mp4;codecs=avc1.4D401E,mp4a.40.2"
       else if sup "video/mp4;codecs=avc1.64001E,mp4a.40.2"
         then "video/mp4;codecs=avc1.64001E,mp4a.40.2"
       else if sup "video/mp4" then "video/mp4"
       else if sup "video/webm;codecs=h264" then "video/webm;codecs=h264"
       else if sup "video/webm;codecs=vp9,opus" then "video/webm;codecs=vp9,opus"
       else if sup "video/webm" then "video/webm"
       else "video/webm")
    ∧ ((∀ t ∈ mimeCandidates, sup t = false) →
        negotiateMimeType sup = "video/webm") := by
  constructor
  · simp only [negotiateMimeType, getSupportedMimeType, mimeCandidates, List.find?]
    cases h0 : sup "video/mp4;codecs=avc1.42E01E,mp4a.40.2" <;>
      cases h1 : sup "video/mp4;codecs=avc1.4D401E,mp4a.40.2" <;>
        cases h2 : sup "video/mp4;codecs=avc1.64001E,mp4a.40.2" <;>
          cases h3 : sup "video/mp4" <;>
            cases h4 : sup "video/webm;codecs=h264" <;>
              cases h5 : sup "video/webm;codecs=vp9,opus" <;>
                cases h6 : sup "video/webm" <;>
                  simp [h0, h1, h2, h3, h4, h5, h6]
  · intro hall
    have h0 := hall "video/mp4;codecs=avc1.42E01E,mp4a.40.2" (by simp [mimeCandidates])
    have h1 := hall "video/mp4;codecs=avc1.4D401E,mp4a.40.2" (by simp [mimeCandidates])
    have h2 := hall "video/mp4;codecs=avc1.64001E,mp4a.40.2" (by simp [mimeCandidates])
    have h3 := hall "video/mp4" (by simp [mimeCandidates])
    have h4 := hall "video/webm;codecs=h264" (by simp [mimeCandidates])
    have h5 := hall "video/webm;codecs=vp9,opus" (by simp [mimeCandidates])
    have h6 := hall "video/webm" (by simp [mimeCandidates])
    simp [negotiateMimeType, getSupportedMimeType, mimeCandidates, List.find?,
      h0, h1, h2, h3, h4, h5, h6]

/-- Witness for C9: a host supporting nothing gets the generic default
container identifier. -/
theorem mimeType_selection_witness :
    negotiateMimeType (fun _ => false) = "video/webm" :=
  (mimeType_selection_spec (fun _ => false)).2 (fun _ _ => rfl)

/-- C10: the progress divisor substitutes 1 for an unavailable (NaN,
modelled as none) or zero duration and is never zero, so the progress
computation is total, and every computed value is clamped to at most
99.9. -/
theorem progress_divisor_spec (dur : Option ℚ) (t : ℚ) :
    durationDivisor dur ≠ 0
    ∧ durationDivisor none = 1
    ∧ durationDivisor (some 0) = 1
    ∧ progressValue dur t = min (t / durationDivisor dur * 100) 99.9
    ∧ progressValue dur t ≤ 99.9 := by
  refine ⟨?_, rfl, by norm_num [durationDivisor], rfl, min_le_right _ _⟩
  cases dur with
  | none => norm_num [durationDivisor]
  | some d =>
    by_cases h : d = 0 <;> simp [durationDivisor, h]

end Watermark
